import Mathlib

/-!
Shallow embedding of the event-to-markup binding core of the livefir-fir
repository: the attribute namespace grammar and binding table
(`internal/dom`, function `Bindings.AddFile` / `Bindings.TemplateNames`),
the template value builder (`buildTemplateValue`), DOM event synthesis
(`renderDOMEvents`) and per-session error reconciliation (`trackErrors`)
from `controller.go`.

Go runtime behaviour is made explicit:
- a Go panic (nil pointer dereference, out-of-range slice index, failed
  type assertion, explicit `panic(...)`) is the `GoResult.panicked`
  outcome;
- `strings.SplitN(s, sep, -1)` is `goSplit` (non-overlapping
  left-to-right splitting), `strings.HasPrefix` is `goHasLead`,
  `strings.TrimPrefix` is `goTrimLead`, `strings.Join` is `goJoin`;
- Go maps are association lists: `mapGet?` is `m[k]` lookup, `mapSet`
  is `m[k] = v` (overwrite in place, append when absent); iteration
  order is the list order (Go map iteration order is unspecified, so
  theorems below avoid depending on it);
- the external collaborators (template engine, HTML minifier, the
  `newRouteDOMContext` wrapper) are oracle parameters, so every theorem
  quantifies over their behaviour.
-/

namespace LiveFir

/-- Go panic made explicit: a computation either returns a value or
panics with a message. -/
inductive GoResult (α : Type) where
  | ok (a : α)
  | panicked (msg : String)
deriving DecidableEq, Repr

/-! ## Go string primitives -/

/-- Fuelled core of `strings.Split`: splits around each non-overlapping
occurrence of `sep`, scanning left to right. The fuel is always
instantiated with the length of the subject list, which suffices for a
nonempty separator. -/
def chSplit (sep : List Char) : Nat → List Char → List Char → List (List Char)
  | _, [], acc => [acc.reverse]
  | 0, l, acc => [acc.reverse ++ l]
  | fuel+1, c :: rest, acc =>
    if sep.isPrefixOf (c :: rest) then
      acc.reverse :: chSplit sep fuel ((c :: rest).drop sep.length) []
    else
      chSplit sep fuel rest (c :: acc)

/-- Go `strings.SplitN(s, sep, -1)` i.e. `strings.Split(s, sep)` for a
nonempty separator (the empty-separator case is never exercised by the
source). -/
def goSplit (s sep : String) : List String :=
  if sep.data = [] then [s]
  else (chSplit sep.data s.data.length s.data []).map String.mk

/-- Go `strings.HasPrefix p` test. -/
def goHasLead (p s : String) : Bool := p.data.isPrefixOf s.data

/-- Go `strings.TrimPrefix`: drops `p` from the front of `s` when it is
a leading substring, otherwise returns `s` unchanged. -/
def goTrimLead (p s : String) : String :=
  if goHasLead p s then String.mk (s.data.drop p.data.length) else s

/-- Go `strings.Join(parts, sep)`. -/
def goJoin (sep : String) : List String → String
  | [] => ""
  | [s] => s
  | s :: rest => s ++ sep ++ goJoin sep rest

/-! ## Go map model (association lists) -/

/-- Go map read `m[k]` returning `none` when the key is absent. -/
def mapGet? {α : Type} : List (String × α) → String → Option α
  | [], _ => none
  | (k2, v) :: rest, k => if k2 = k then some v else mapGet? rest k

/-- Go map write `m[k] = v`: overwrite the first entry with key `k`,
append when no entry has that key. -/
def mapSet {α : Type} (m : List (String × α)) (k : String) (v : α) :
    List (String × α) :=
  match m with
  | [] => [(k, v)]
  | (k2, v2) :: rest => if k2 = k then (k, v) :: rest else (k2, v2) :: mapSet rest k v

/-- Go set insertion `set[x] = struct\x7b\x7d\x7b\x7d`, modelling the
`map[string]struct\x7b\x7d` value sets of the binding table as
duplicate-free lists. -/
def setInsert (l : List String) (x : String) : List String :=
  if l.contains x then l else l ++ [x]

/-! ## internal/dom: the namespace grammar (`Bindings.AddFile`) -/

/-- Outcome of processing one attribute key inside the `AddFile` scan
loop: a successful registration, one of the two logged-and-skipped
rejections, the continue on an empty split, an attribute without the
binding prefix, or a Go runtime panic. -/
inductive ParseOutcome where
  | recorded (eventID templateName : String)
  | formatError
  | invalidTemplateName
  | notBinding
  | skipped
  | panicked (msg : String)
deriving DecidableEq, Repr

/-- The state words accepted after the event name
(`slices.Contains([]string\x7b"ok", "error", "pending", "done"\x7d, ...)`). -/
def validStates : List String := ["ok", "error", "pending", "done"]

/-- Character class of the compiled template-name regular expression
`^[ A-Za-z0-9\-:]*$`. -/
def tnChar (c : Char) : Bool :=
  c = ' ' || ('A' ≤ c && c ≤ 'Z') || ('a' ≤ c && c ≤ 'z') ||
    ('0' ≤ c && c ≤ '9') || c = '-' || c = ':'

/-- `templateNameRegex.MatchString`: every character of the name lies in
the class `[ A-Za-z0-9\-:]`. -/
def templateNameOK (t : String) : Bool := t.data.all tnChar

/-- Template-name validation followed by registration, the tail of the
`AddFile` loop body: the regex rejection is `invalidTemplateName`, and
on success the `(eventID, templateName)` pair is recorded. -/
def checkTemplate (eventID t : String) : ParseOutcome :=
  if templateNameOK t then .recorded eventID t else .invalidTemplateName

/-- Body of the `AddFile` loop after the modifier split: split on `::`
(at most two parts), split the first part on `:` (exactly two parts),
check the state word, forbid templates on `pending`/`done`, then read
the template name. The source reads `eventnsParts[2]` from the length-2
`::` split, so the model indexes position 2 and panics when it is out
of range, exactly as the Go slice access does. -/
def parseNamespace (eventns : String) : ParseOutcome :=
  let parts := goSplit eventns "::"
  if parts.length = 0 then .skipped
  else if parts.length > 2 then .formatError
  else
    let eventID := parts.headD ""
    let idParts := goSplit eventID ":"
    if idParts.length ≠ 2 then .formatError
    else if ¬ (validStates.contains (idParts.getD 1 "")) then .formatError
    else if parts.length = 2 ∧ ¬ (["ok", "error"].contains (idParts.getD 1 "")) then
      .formatError
    else if parts.length = 2 then
      match parts.get? 2 with
      | some t => checkTemplate eventID t
      | none => .panicked "runtime error: index out of range [2] with length 2"
    else checkTemplate eventID "-"

/-- Modifier handling of `AddFile`: split the namespace on `.`, reject
more than three segments, keep the first segment. -/
def parseDotParts (dotParts : List String) (ens : String) : ParseOutcome :=
  if dotParts.length > 3 then .formatError
  else parseNamespace (if dotParts.length > 0 then dotParts.headD ens else ens)

/-- Processing of one attribute key by the `AddFile` scan: keys without
the `@fir:`/`x-on:fir:` binding lead are ignored, otherwise the lead is
trimmed and the namespace parsed. -/
def parseAttrKey (key : String) : ParseOutcome :=
  if goHasLead "@fir:" key || goHasLead "x-on:fir:" key then
    let ens := goTrimLead "x-on:fir:" (goTrimLead "@fir:" key)
    parseDotParts (goSplit ens ".") ens
  else .notBinding

/-- Registration step of `AddFile`: fetch the name set bound to
`eventID`, insert the template name, store the set back. -/
def insertTemplate (tbl : List (String × List String)) (eventID tn : String) :
    List (String × List String) :=
  mapSet tbl eventID (setInsert ((mapGet? tbl eventID).getD []) tn)

/-- The `AddFile` scan over a list of attribute keys (the goquery
traversal enumerates every attribute of every element; the model takes
that flattened key list as input). A panic inside the loop body aborts
the whole scan, every logged rejection continues with the next key. -/
def scanAttrs : List String → List (String × List String) →
    GoResult (List (String × List String))
  | [], tbl => .ok tbl
  | k :: ks, tbl =>
    match parseAttrKey k with
    | .recorded eventID tn => scanAttrs ks (insertTemplate tbl eventID tn)
    | .panicked m => .panicked m
    | _ => scanAttrs ks tbl

/-- `Bindings.TemplateNames`: read the name set bound to the compound
`eventID:state` key; a missing key yields the empty result (the Go
range over a nil map). The function is total: there is no error
channel. -/
def TemplateNames (tbl : List (String × List String)) (key : String) :
    List String :=
  (mapGet? tbl key).getD []

/-! ## controller.go: data model

`eventstate.Type` is a string-typed enumeration (values `"ok"`,
`"error"`, `"pending"`, `"done"`; the Go zero value is `""`), so states
are plain strings here. Modelled from the spec: the `eventstate`
package itself is not under the sources provided, only its four values
and its use as `%s` in `fmt.Sprintf` are. -/

/-- Go `interface\x7b\x7d` values reaching this core: `nil`, strings,
numbers, a `map[string]string`, a `map[string]any`, and the opaque
`RouteDOMContext` produced by `newRouteDOMContext` (kept symbolic, its
construction is outside the core). This is the value universe over
which the dynamic type assertions `v.(map[string]string)`,
`Detail.(map[string]any)` and `data.(string)` are decided. -/
inductive GoVal where
  | vNil
  | vStr (s : String)
  | vInt (n : Int)
  | vMapSS (m : List (String × String))
  | vMapSA (m : List (String × GoVal))
  | vCtx (errs : List (String × GoVal))

/-- Modelled from the spec: `pubsub.Event` (the bus event of §3), with
the pointer-typed fields `ID *string`, `Target *string`,
`SessionID *string` as options, `State eventstate.Type` as a string and
`Detail any` as a `GoVal`; the field set is exactly what
`renderDOMEvents`/`trackErrors` dereference. -/
structure PubsubEvent where
  id : Option String
  state : String
  target : Option String
  detail : GoVal
  sessionID : Option String

/-- `dom.Event` from `internal/dom`: `Type *string`, `Target *string`,
`Detail any`, plus the private `ID` and `State` fields (Go zero values
`""` when a literal leaves them unset). -/
structure DomEvent where
  type : Option String
  target : Option String
  detail : GoVal
  id : String
  state : String

/-- The template engine collaborator: `ExecuteTemplate` by name with
data, already carrying the `missingkey=zero` option the source sets.
A `*template.Template` handle is `Option Template`, `none` being the
nil pointer. -/
structure Template where
  exec : String → GoVal → Except String String

/-- The `fir(parts...)` helper of the `fir` package: prepend `"fir"`
and join with `":"` (the source returns a pointer to this string; the
model returns the string, pointer creation never fails). -/
def fir (parts : List String) : String := goJoin ":" ("fir" :: parts)

/-! ## controller.go: buildTemplateValue -/

/-- `buildTemplateValue(t, name, data)` of `controller.go`: returns
`("" , nil)` on a nil template handle or an empty name; for the
reserved name `_fir_html` the data must already be a string (the
unchecked assertion `data.(string)` panics otherwise) and is written to
the buffer verbatim; otherwise the named template is executed with the
data; the buffer is then minified (`mini` is the
`minify`/`io.Copy` collaborator) and errors from execution or
minification are returned as Go errors. -/
def buildTemplateValue (mini : String → Except String String)
    (t : Option Template) (name : String) (data : GoVal) :
    GoResult (Except String String) :=
  match t with
  | none => .ok (.ok "")
  | some tf =>
    if name = "" then .ok (.ok "")
    else
      let raw : GoResult (Except String String) :=
        if name = "_fir_html" then
          match data with
          | .vStr s => .ok (.ok s)
          | _ => .panicked "interface conversion: interface is not string"
        else
          match tf.exec name data with
          | .error e => .ok (.error e)
          | .ok out => .ok (.ok out)
      match raw with
      | .panicked m => .panicked m
      | .ok (.error e) => .ok (.error e)
      | .ok (.ok rawStr) =>
        match mini rawStr with
        | .error e => .ok (.error e)
        | .ok v => .ok (.ok v)

/-! ## controller.go: renderDOMEvents -/

/-- The `templateData` computation of `renderDOMEvents`: for an
error-state event with non-nil detail, the detail must pass the
`Detail.(map[string]any)` assertion (`none` models the logged
assertion failure that skips the template) and is wrapped via
`newRouteDOMContext` (the oracle `wrap`) under the key `"fir"`; in
every other case the detail is passed through unchanged. -/
def templateDataOf (wrap : List (String × GoVal) → GoVal) (pe : PubsubEvent) :
    Option GoVal :=
  if pe.state = "error" then
    match pe.detail with
    | .vNil => some pe.detail
    | .vMapSA errs => some (.vMapSA [("fir", wrap errs)])
    | _ => none
  else some pe.detail

/-- One iteration of the template loop of `renderDOMEvents` for a bound
template name: the sentinel `"-"` emits the raw detail under the
compound type with no template suffix; otherwise the template data is
shaped (`templateDataOf`; a failed shape assertion logs and skips),
the template value is built (build errors log and skip), and an empty
error-state render skips emission. `eid` is the dereferenced
`*pubsubEvent.ID` and `key` the compound `eventID:state` string. -/
def renderOne (mini : String → Except String String) (t : Option Template)
    (wrap : List (String × GoVal) → GoVal) (pe : PubsubEvent)
    (eid key templateName : String) : GoResult (Option DomEvent) :=
  if templateName = "-" then
    .ok (some ⟨some (fir [key]), pe.target, pe.detail, eid, pe.state⟩)
  else
    let eventType := fir [key, templateName]
    match templateDataOf wrap pe with
    | none => .ok none
    | some templateData =>
      match buildTemplateValue mini t templateName templateData with
      | .panicked m => .panicked m
      | .ok (.error _e) => .ok none
      | .ok (.ok value) =>
        if pe.state = "error" ∧ value = "" then .ok none
        else .ok (some ⟨some eventType, pe.target, .vStr value, key, pe.state⟩)

/-- The template loop of `renderDOMEvents`, accumulating the emitted
events in order; a panic in any iteration aborts the call. -/
def renderLoop (mini : String → Except String String) (t : Option Template)
    (wrap : List (String × GoVal) → GoVal) (pe : PubsubEvent)
    (eid key : String) : List String → GoResult (List DomEvent)
  | [] => .ok []
  | n :: ns =>
    match renderOne mini t wrap pe eid key n with
    | .panicked m => .panicked m
    | .ok none => renderLoop mini t wrap pe eid key ns
    | .ok (some e) =>
      match renderLoop mini t wrap pe eid key ns with
      | .panicked m => .panicked m
      | .ok evs => .ok (e :: evs)

/-! ## controller.go: trackErrors -/

/-- The candidate loop of `trackErrors`: `ok`-state events pass through
untouched; every other event passes through and its dereferenced
`(*Type, *Target)` pair is written into the fresh error map (a nil
`Type` or `Target` pointer panics). Returns the passed-through events
and the final map. -/
def trackLoop : List DomEvent → List (String × String) →
    GoResult (List DomEvent × List (String × String))
  | [], acc => .ok ([], acc)
  | e :: es, acc =>
    if e.state = "ok" then
      match trackLoop es acc with
      | .panicked m => .panicked m
      | .ok (out, m) => .ok (e :: out, m)
    else
      match e.type, e.target with
      | some ty, some tg =>
        match trackLoop es (mapSet acc ty tg) with
        | .panicked m => .panicked m
        | .ok (out, m) => .ok (e :: out, m)
      | none, _ => .panicked "runtime error: invalid memory address or nil pointer dereference"
      | some _, none => .panicked "runtime error: invalid memory address or nil pointer dereference"

/-- A clearing event synthesized by `trackErrors` for a stale pair:
`dom.Event\x7bType: &type, Target: &target, Detail: ""\x7d`, the private
fields left at their Go zero values. -/
def mkClear (ty tg : String) : DomEvent := ⟨some ty, some tg, .vStr "", "", ""⟩

/-- The unset loop of `trackErrors`: one clearing event for every entry
of the previous round's map whose key is absent from the fresh map,
in iteration order. -/
def clearingEvents (prev newErrs : List (String × String)) : List DomEvent :=
  (prev.filter (fun p => (mapGet? newErrs p.1).isNone)).map
    (fun p => mkClear p.1 p.2)

/-- The fallback event appended by `trackErrors` when nothing else was
produced: compound type with no template suffix, the bus event's target
and detail. -/
def fallbackEvent (pe : PubsubEvent) (eid : String) : DomEvent :=
  ⟨some (fir [eid ++ ":" ++ pe.state]), pe.target, pe.detail, eid, pe.state⟩

/-- `trackErrors(ctx, pubsubEvent, events)`: load the session's cached
map (`cacheVal` is the `ctx.route.cache.Get(*SessionID)` result, `none`
when absent or expired; a value of any other dynamic type than
`map[string]string` hits the explicit `panic`), run the candidate loop,
store the fresh map (returned as the second component, modelling
`cache.Set`), append clearing events for stale entries, and fall back
to a single synthetic event when the output would be empty. -/
def trackErrors (pe : PubsubEvent) (cacheVal : Option GoVal)
    (events : List DomEvent) :
    GoResult (List DomEvent × List (String × String)) :=
  match pe.sessionID with
  | none => .panicked "runtime error: invalid memory address or nil pointer dereference"
  | some _sid =>
    let prevR : GoResult (List (String × String)) :=
      match cacheVal with
      | none => .ok []
      | some (.vMapSS m) => .ok m
      | some _ => .panicked "fir: cache value is not a map[string]string"
    match prevR with
    | .panicked m => .panicked m
    | .ok prevErrors =>
      match trackLoop events [] with
      | .panicked m => .panicked m
      | .ok (outEvents, newErrors) =>
        let withClears := outEvents ++ clearingEvents prevErrors newErrors
        match withClears with
        | [] =>
          match pe.id with
          | none => .panicked "runtime error: invalid memory address or nil pointer dereference"
          | some eid => .ok ([fallbackEvent pe eid], newErrors)
        | e :: es => .ok (e :: es, newErrors)

/-- `renderDOMEvents(ctx, pubsubEvent)`: build the compound
`eventID:state` key from the dereferenced `*pubsubEvent.ID`, look the
bound template names up in the route's binding table, run the template
loop, and hand the candidates to `trackErrors`. -/
def renderDOMEvents (mini : String → Except String String)
    (t : Option Template) (wrap : List (String × GoVal) → GoVal)
    (bindings : List (String × List String)) (cacheVal : Option GoVal)
    (pe : PubsubEvent) :
    GoResult (List DomEvent × List (String × String)) :=
  match pe.id with
  | none => .panicked "runtime error: invalid memory address or nil pointer dereference"
  | some eid =>
    let key := eid ++ ":" ++ pe.state
    match renderLoop mini t wrap pe eid key (TemplateNames bindings key) with
    | .panicked m => .panicked m
    | .ok events => trackErrors pe cacheVal events

/-- Recognizer for a clearing event with the given type and target:
`Type = &ty`, `Target = &tg`, `Detail = ""` (used to count the clearing
events `trackErrors` appends). -/
def isClearFor (ty tg : String) (ev : DomEvent) : Bool :=
  (ev.type == some ty) && (ev.target == some tg) &&
    (match ev.detail with | .vStr s => s == "" | _ => false)

/-! ## Supporting lemmas for the grammar claims -/

lemma mapGet?_eq_none {α : Type} (tbl : List (String × α)) (key : String)
    (h : ∀ p ∈ tbl, p.1 ≠ key) : mapGet? tbl key = none := by
  induction tbl with
  | nil => rfl
  | cons p rest ih =>
    obtain ⟨k, v⟩ := p
    have hk : k ≠ key := h (k, v) (List.mem_cons_self _ _)
    simp only [mapGet?, if_neg hk]
    exact ih fun q hq => h q (List.mem_cons_of_mem _ hq)

lemma parseNamespace_ne_invalidName (ens : String) :
    parseNamespace ens ≠ ParseOutcome.invalidTemplateName := by
  intro h
  obtain ⟨parts, hp⟩ : ∃ l, goSplit ens "::" = l := ⟨_, rfl⟩
  simp only [parseNamespace, hp] at h
  match parts with
  | [] => simp at h
  | [p0] =>
    simp only [List.length_singleton, List.headD_cons] at h
    norm_num at h
    split_ifs at h
    simp_all [checkTemplate, show templateNameOK "-" = true from by decide]
  | [p0, p1] =>
    simp only [List.length_cons, List.length_singleton, List.headD_cons] at h
    norm_num at h
    split_ifs at h
  | p0 :: p1 :: p2 :: rest =>
    simp only [List.length_cons] at h
    norm_num at h
    simp at h

lemma parseAttrKey_ne_invalidName (key : String) :
    parseAttrKey key ≠ ParseOutcome.invalidTemplateName := by
  intro h
  simp only [parseAttrKey] at h
  by_cases hpre : (goHasLead "@fir:" key || goHasLead "x-on:fir:" key) = true
  · rw [if_pos hpre] at h
    obtain ⟨parts, hp⟩ :
        ∃ l, goSplit (goTrimLead "x-on:fir:" (goTrimLead "@fir:" key)) "." = l :=
      ⟨_, rfl⟩
    simp only [parseDotParts, hp] at h
    match parts with
    | [] =>
      norm_num at h
      exact parseNamespace_ne_invalidName _ h
    | [p0] =>
      norm_num at h
      exact parseNamespace_ne_invalidName _ h
    | [p0, p1] =>
      norm_num at h
      exact parseNamespace_ne_invalidName _ h
    | [p0, p1, p2] =>
      norm_num at h
      exact parseNamespace_ne_invalidName _ h
    | p0 :: p1 :: p2 :: p3 :: rest =>
      norm_num at h
      simp at h
  · rw [if_neg hpre] at h
    simp at h

/-! ## Claim theorems for the grammar -/

/-- C1: of the six binding forms the spec lists as valid, the four
without a template suffix parse and record the binding with the
sentinel template name `"-"`, but both `::template` forms crash the
scan: the source reads index 2 of the length-2 `::` split, an
out-of-range slice access, so no binding is recorded for them and the
claim fails on the code (the source's own format comment and error
message document `@fir:<event>:<ok|error>::<block-name|optional>` as
valid). -/
theorem addFile_valid_forms_eval :
    parseAttrKey "@fir:ev:ok" = ParseOutcome.recorded "ev:ok" "-"
  ∧ parseAttrKey "@fir:ev:error" = ParseOutcome.recorded "ev:error" "-"
  ∧ parseAttrKey "@fir:ev:pending" = ParseOutcome.recorded "ev:pending" "-"
  ∧ parseAttrKey "@fir:ev:done" = ParseOutcome.recorded "ev:done" "-"
  ∧ parseAttrKey "@fir:ev:ok::tmpl" =
      ParseOutcome.panicked "runtime error: index out of range [2] with length 2"
  ∧ parseAttrKey "@fir:ev:error::tmpl" =
      ParseOutcome.panicked "runtime error: index out of range [2] with length 2"
  ∧ scanAttrs ["@fir:ev:ok", "@fir:ev:error", "@fir:ev:pending", "@fir:ev:done"] [] =
      GoResult.ok [("ev:ok", ["-"]), ("ev:error", ["-"]),
                   ("ev:pending", ["-"]), ("ev:done", ["-"])]
  ∧ scanAttrs ["@fir:ev:ok::tmpl"] [] =
      GoResult.panicked "runtime error: index out of range [2] with length 2" := by
  refine ⟨by decide, by decide, by decide, by decide, by decide, by decide, ?_, by decide⟩
  decide

/-- C4 (counterexample): a binding key with three `.`-separated
modifier segments is rejected with a format error, although the same
namespace without modifiers parses; so modifiers alone can cause a
format error, contrary to the claim. -/
theorem addFile_three_modifiers_format_error :
    parseAttrKey "@fir:ev:ok.a.b.c" = ParseOutcome.formatError
  ∧ parseAttrKey "@fir:ev:ok" = ParseOutcome.recorded "ev:ok" "-" := by
  exact ⟨by decide, by decide⟩

/-- C4 (amended): for a binding-prefixed key whose namespace carries at
most two `.`-separated modifier segments, the parser keeps only the
first segment and parses it as the event namespace; and a format error
on any key never aborts the scan, which continues with the next
attribute. -/
theorem addFile_modifiers_first_segment (key first : String) (mods : List String)
    (hpre : (goHasLead "@fir:" key || goHasLead "x-on:fir:" key) = true)
    (hsplit : goSplit (goTrimLead "x-on:fir:" (goTrimLead "@fir:" key)) "." = first :: mods)
    (hlen : mods.length ≤ 2) :
    parseAttrKey key = parseNamespace first
  ∧ ∀ badKey ks tbl, parseAttrKey badKey = ParseOutcome.formatError →
      scanAttrs (badKey :: ks) tbl = scanAttrs ks tbl := by
  constructor
  · simp only [parseAttrKey, hpre, if_true, parseDotParts, hsplit]
    have h1 : ¬ ((first :: mods).length > 3) := by
      simp only [List.length_cons]
      omega
    rw [if_neg h1, if_pos (by simp)]
    simp
  · intro badKey ks tbl h
    simp only [scanAttrs, h]

/-- C4 (witness): the amended theorem applied to the key
`@fir:ev:ok.prevent`, whose single modifier segment is dropped. -/
theorem addFile_modifiers_first_segment_witness :
    parseAttrKey "@fir:ev:ok.prevent" = parseNamespace "ev:ok" ∧
    ∀ badKey ks tbl, parseAttrKey badKey = ParseOutcome.formatError →
      scanAttrs (badKey :: ks) tbl = scanAttrs ks tbl :=
  addFile_modifiers_first_segment "@fir:ev:ok.prevent" "ev:ok" ["prevent"]
    (by decide) (by decide) (by decide)

/-- C5: a binding whose supplied template name contains a character
outside `[A-Za-z0-9\-: ]` is not rejected with the distinct
invalid-template-name error: the scan crashes first on the
out-of-range read of the `::` split (so the whole scan aborts instead
of continuing), and in fact no attribute key at all can reach the
invalid-template-name rejection. -/
theorem addFile_invalid_template_name_panics :
    parseAttrKey "@fir:ev:ok::bad$name" =
      ParseOutcome.panicked "runtime error: index out of range [2] with length 2"
  ∧ scanAttrs ["@fir:ev:ok::bad$name", "@fir:like:ok"] [] =
      GoResult.panicked "runtime error: index out of range [2] with length 2"
  ∧ ∀ key, parseAttrKey key ≠ ParseOutcome.invalidTemplateName :=
  ⟨by decide, by decide, parseAttrKey_ne_invalidName⟩

/-- C9: looking up an `eventID:state` key for which no binding was
recorded returns the empty result; `TemplateNames` is total, there is
no error outcome. -/
theorem templateNames_unbound_empty (tbl : List (String × List String))
    (key : String) (h : ∀ p ∈ tbl, p.1 ≠ key) :
    TemplateNames tbl key = [] := by
  unfold TemplateNames
  rw [mapGet?_eq_none tbl key h]
  rfl

/-- C9 (witness): lookup of a never-seen key in a one-entry table. -/
theorem templateNames_unbound_empty_witness :
    TemplateNames [("like:ok", ["-"])] "missing:error" = [] :=
  templateNames_unbound_empty _ _ (by decide)

/-! ## Supporting lemmas for the map model -/

lemma mem_mapSet {α : Type} (m : List (String × α)) (k : String) (v : α)
    (p : String × α) (hp : p ∈ mapSet m k v) : p = (k, v) ∨ p ∈ m := by
  induction m with
  | nil => simpa [mapSet] using hp
  | cons q rest ih =>
    obtain ⟨k2, v2⟩ := q
    by_cases hk : k2 = k
    · simp only [mapSet, if_pos hk] at hp
      rcases List.mem_cons.mp hp with h | h
      · exact Or.inl h
      · exact Or.inr (List.mem_cons_of_mem _ h)
    · simp only [mapSet, if_neg hk] at hp
      rcases List.mem_cons.mp hp with h | h
      · exact Or.inr (h ▸ List.mem_cons_self _ _)
      · rcases ih h with h2 | h2
        · exact Or.inl h2
        · exact Or.inr (List.mem_cons_of_mem _ h2)

lemma mapGet?_mapSet_self {α : Type} (m : List (String × α)) (k : String) (v : α) :
    mapGet? (mapSet m k v) k = some v := by
  induction m with
  | nil => simp [mapSet, mapGet?]
  | cons q rest ih =>
    obtain ⟨k2, v2⟩ := q
    by_cases hk : k2 = k
    · simp [mapSet, mapGet?, hk]
    · simp [mapSet, mapGet?, hk, ih]

lemma mapGet?_mapSet_ne {α : Type} (m : List (String × α)) (k k2 : String) (v : α)
    (h : k2 ≠ k) : mapGet? (mapSet m k v) k2 = mapGet? m k2 := by
  have h2 : ¬ (k = k2) := fun hh => h hh.symm
  induction m with
  | nil => simp [mapSet, mapGet?, h2]
  | cons q rest ih =>
    obtain ⟨k3, v3⟩ := q
    by_cases hk : k3 = k
    · subst hk
      simp [mapSet, mapGet?, h2]
    · by_cases hk2 : k3 = k2
      · subst hk2
        simp [mapSet, mapGet?, hk]
      · simp [mapSet, mapGet?, hk, hk2, ih]

lemma mapGet?_mapSet_isSome {α : Type} (m : List (String × α)) (k k2 : String) (v : α)
    (h : (mapGet? m k2).isSome) : (mapGet? (mapSet m k v) k2).isSome := by
  by_cases hk : k2 = k
  · subst hk
    simp [mapGet?_mapSet_self]
  · rwa [mapGet?_mapSet_ne m k k2 v hk]

/-! ## Supporting lemmas for the reconciliation claims -/

lemma trackLoop_ok (events : List DomEvent)
    (h : ∀ e ∈ events, e.state ≠ "ok" → e.type.isSome ∧ e.target.isSome) :
    ∀ acc, ∃ m, trackLoop events acc = .ok (events, m) ∧
      (∀ p ∈ m, p ∈ acc ∨
        ∃ e ∈ events, e.state ≠ "ok" ∧ e.type = some p.1 ∧ e.target = some p.2) ∧
      (∀ e ∈ events, e.state ≠ "ok" → ∀ ty, e.type = some ty →
        (mapGet? m ty).isSome) ∧
      (∀ k, (mapGet? acc k).isSome → (mapGet? m k).isSome) := by
  induction events with
  | nil =>
    intro acc
    exact ⟨acc, rfl, fun p hp => Or.inl hp, by simp, fun k hk => hk⟩
  | cons e es ih =>
    intro acc
    have hes : ∀ x ∈ es, x.state ≠ "ok" → x.type.isSome ∧ x.target.isSome :=
      fun x hx => h x (List.mem_cons_of_mem _ hx)
    by_cases hok : e.state = "ok"
    · obtain ⟨m, hm, hmem, hrec, hpres⟩ := ih hes acc
      refine ⟨m, ?_, ?_, ?_, hpres⟩
      · simp only [trackLoop, if_pos hok, hm]
      · intro p hp
        rcases hmem p hp with hin | ⟨x, hx, hxs, hxt, hxg⟩
        · exact Or.inl hin
        · exact Or.inr ⟨x, List.mem_cons_of_mem _ hx, hxs, hxt, hxg⟩
      · intro x hx hxs ty hty
        rcases List.mem_cons.mp hx with rfl | hx2
        · exact absurd hok hxs
        · exact hrec x hx2 hxs ty hty
    · obtain ⟨hts, htgs⟩ := h e (List.mem_cons_self _ _) hok
      obtain ⟨ty, hty⟩ := Option.isSome_iff_exists.mp hts
      obtain ⟨tg, htg⟩ := Option.isSome_iff_exists.mp htgs
      obtain ⟨m, hm, hmem, hrec, hpres⟩ := ih hes (mapSet acc ty tg)
      refine ⟨m, ?_, ?_, ?_, ?_⟩
      · simp only [trackLoop, if_neg hok, hty, htg, hm]
      · intro p hp
        rcases hmem p hp with hin | ⟨x, hx, hxs, hxt, hxg⟩
        · rcases mem_mapSet acc ty tg p hin with rfl | hacc
          · exact Or.inr ⟨e, List.mem_cons_self _ _, hok, hty, htg⟩
          · exact Or.inl hacc
        · exact Or.inr ⟨x, List.mem_cons_of_mem _ hx, hxs, hxt, hxg⟩
      · intro x hx hxs ty2 hty2
        rcases List.mem_cons.mp hx with rfl | hx2
        · have hty2ty : ty2 = ty := by
            rw [hty] at hty2
            exact (Option.some_inj.mp hty2).symm
          subst hty2ty
          exact hpres ty2 (by simp [mapGet?_mapSet_self])
        · exact hrec x hx2 hxs ty2 hty2
      · intro k hk
        exact hpres k (mapGet?_mapSet_isSome acc ty k tg hk)

lemma trackErrors_out_nonempty (pe : PubsubEvent) (cv : Option GoVal)
    (events out : List DomEvent) (m : List (String × String))
    (h : trackErrors pe cv events = .ok (out, m)) : out ≠ [] := by
  simp only [trackErrors] at h
  split at h
  · simp at h
  · split at h
    · simp at h
    · split at h
      · simp at h
      · split at h
        · split at h
          · simp at h
          · simp only [GoResult.ok.injEq, Prod.mk.injEq] at h
            obtain ⟨h1, h2⟩ := h
            subst h1
            simp
        · simp only [GoResult.ok.injEq, Prod.mk.injEq] at h
          obtain ⟨h1, h2⟩ := h
          subst h1
          simp

lemma isClearFor_mkClear (ty tg k v : String) :
    isClearFor ty tg (mkClear k v) = ((k == ty) && (v == tg)) := by
  simp [isClearFor, mkClear]

lemma clearingEvents_cons (k v : String) (rest : List (String × String))
    (m : List (String × String)) :
    clearingEvents ((k, v) :: rest) m =
      if (mapGet? m k).isNone then mkClear k v :: clearingEvents rest m
      else clearingEvents rest m := by
  simp only [clearingEvents, List.filter_cons]
  split <;> simp

lemma clearing_countP_zero (prev m : List (String × String)) (ty tg : String)
    (h : ∀ v, (ty, v) ∈ prev → (mapGet? m ty).isSome) :
    (clearingEvents prev m).countP (isClearFor ty tg) = 0 := by
  induction prev with
  | nil => rfl
  | cons p rest ih =>
    obtain ⟨k, v2⟩ := p
    have hrest : ∀ v, (ty, v) ∈ rest → (mapGet? m ty).isSome :=
      fun v hv => h v (List.mem_cons_of_mem _ hv)
    rw [clearingEvents_cons]
    split
    · rename_i hkeep
      have hkty : k ≠ ty := by
        intro hk
        subst hk
        have hsm := h v2 (List.mem_cons_self _ _)
        simp [Option.isNone_iff_eq_none] at hkeep
        simp [hkeep] at hsm
      rw [List.countP_cons]
      simp [isClearFor_mkClear, hkty, ih hrest]
    · exact ih hrest

lemma clearing_countP_one (prev m : List (String × String)) (ty tg : String)
    (hnodup : (prev.map Prod.fst).Nodup)
    (hmem : (ty, tg) ∈ prev) (hstale : mapGet? m ty = none) :
    (clearingEvents prev m).countP (isClearFor ty tg) = 1 := by
  induction prev with
  | nil => simp at hmem
  | cons p rest ih =>
    obtain ⟨k, v2⟩ := p
    have hnd2 : (rest.map Prod.fst).Nodup := (List.nodup_cons.mp hnodup).2
    have hknotin : k ∉ rest.map Prod.fst := (List.nodup_cons.mp hnodup).1
    rcases List.mem_cons.mp hmem with heq | hrest
    · rw [Prod.mk.injEq] at heq
      obtain ⟨rfl, rfl⟩ := heq
      have hkeep : (mapGet? m ty).isNone := by simp [hstale]
      rw [clearingEvents_cons, if_pos hkeep, List.countP_cons]
      have hzero := clearing_countP_zero rest m ty tg
        (fun v hv => absurd (List.mem_map.mpr ⟨(ty, v), hv, rfl⟩) hknotin)
      simp [isClearFor_mkClear, hzero]
    · have hkty : k ≠ ty := by
        intro hk
        subst hk
        exact hknotin (List.mem_map.mpr ⟨(k, tg), hrest, rfl⟩)
      rw [clearingEvents_cons]
      split
      · rw [List.countP_cons]
        simp [isClearFor_mkClear, hkty, ih hnd2 hrest]
      · exact ih hnd2 hrest

lemma buildTemplateValue_ok (mini : String → Except String String)
    (t : Option Template) (name : String) (data : GoVal)
    (h : name = "_fir_html" → t ≠ none → ∃ s, data = GoVal.vStr s) :
    ∃ res, buildTemplateValue mini t name data = .ok res := by
  cases t with
  | none => exact ⟨.ok "", rfl⟩
  | some tf =>
    by_cases hn : name = ""
    · exact ⟨.ok "", by simp [buildTemplateValue, hn]⟩
    · by_cases hs : name = "_fir_html"
      · obtain ⟨s, hd⟩ := h hs (by simp)
        subst hd
        cases hm : mini s with
        | error e => exact ⟨.error e, by simp [buildTemplateValue, hn, hs, hm]⟩
        | ok v => exact ⟨.ok v, by simp [buildTemplateValue, hn, hs, hm]⟩
      · cases hex : tf.exec name data with
        | error e => exact ⟨.error e, by simp [buildTemplateValue, hn, hs, hex]⟩
        | ok out =>
          cases hm : mini out with
          | error e => exact ⟨.error e, by simp [buildTemplateValue, hn, hs, hex, hm]⟩
          | ok v => exact ⟨.ok v, by simp [buildTemplateValue, hn, hs, hex, hm]⟩

lemma renderOne_ok (mini : String → Except String String) (t : Option Template)
    (wrap : List (String × GoVal) → GoVal) (pe : PubsubEvent) (eid key n : String)
    (hsent : n = "_fir_html" →
      t = none ∨ (pe.state ≠ "error" ∧ ∃ s, pe.detail = GoVal.vStr s)) :
    ∃ r, renderOne mini t wrap pe eid key n = .ok r ∧
      ∀ e, r = some e → e.type.isSome ∧ e.target = pe.target ∧ e.state = pe.state := by
  by_cases hdash : n = "-"
  · refine ⟨some ⟨some (fir [key]), pe.target, pe.detail, eid, pe.state⟩,
      by simp [renderOne, hdash], ?_⟩
    intro e he
    injection he with h2
    subst h2
    simp
  · cases htd : templateDataOf wrap pe with
    | none =>
      refine ⟨none, by simp [renderOne, hdash, htd], by simp⟩
    | some d =>
      have hd2 : n = "_fir_html" → t ≠ none → ∃ s, d = GoVal.vStr s := by
        intro hs ht
        rcases hsent hs with h1 | ⟨hne, s, hdet⟩
        · exact absurd h1 ht
        · rw [templateDataOf, if_neg hne, hdet] at htd
          exact ⟨s, (Option.some_inj.mp htd).symm⟩
      obtain ⟨res, hres⟩ := buildTemplateValue_ok mini t n d hd2
      cases res with
      | error e2 =>
        refine ⟨none, by simp [renderOne, hdash, htd, hres], by simp⟩
      | ok value =>
        by_cases hif : pe.state = "error" ∧ value = ""
        · refine ⟨none, by simp [renderOne, hdash, htd, hres, hif], by simp⟩
        · refine ⟨some ⟨some (fir [key, n]), pe.target, .vStr value, key, pe.state⟩,
            by simp [renderOne, hdash, htd, hres, hif], ?_⟩
          intro e he
          injection he with h2
          subst h2
          simp

lemma renderLoop_ok (mini : String → Except String String) (t : Option Template)
    (wrap : List (String × GoVal) → GoVal) (pe : PubsubEvent) (eid key : String)
    (names : List String)
    (hsent : ∀ n ∈ names, n = "_fir_html" →
      t = none ∨ (pe.state ≠ "error" ∧ ∃ s, pe.detail = GoVal.vStr s)) :
    ∃ evs, renderLoop mini t wrap pe eid key names = .ok evs ∧
      ∀ e ∈ evs, e.type.isSome ∧ e.target = pe.target ∧ e.state = pe.state := by
  induction names with
  | nil => exact ⟨[], rfl, by simp⟩
  | cons n ns ih =>
    obtain ⟨r, hr, hrP⟩ :=
      renderOne_ok mini t wrap pe eid key n (hsent n (List.mem_cons_self _ _))
    obtain ⟨evs, hevs, hevsP⟩ := ih (fun x hx => hsent x (List.mem_cons_of_mem _ hx))
    cases r with
    | none => exact ⟨evs, by simp [renderLoop, hr, hevs], hevsP⟩
    | some e =>
      refine ⟨e :: evs, by simp [renderLoop, hr, hevs], ?_⟩
      intro x hx
      rcases List.mem_cons.mp hx with rfl | hx2
      · exact hrP x rfl
      · exact hevsP x hx2

lemma trackErrors_ok (pe : PubsubEvent) (cacheVal : Option GoVal)
    (events : List DomEvent) (sid eid : String)
    (hsid : pe.sessionID = some sid) (hid : pe.id = some eid)
    (hcache : cacheVal = none ∨ ∃ mm, cacheVal = some (GoVal.vMapSS mm))
    (hev : ∀ e ∈ events, e.state ≠ "ok" → e.type.isSome ∧ e.target.isSome) :
    ∃ res, trackErrors pe cacheVal events = .ok res := by
  obtain ⟨m, hm, _, _, _⟩ := trackLoop_ok events hev []
  rcases hcache with rfl | ⟨mm, rfl⟩
  · cases hC : events ++ clearingEvents [] m with
    | nil =>
      exact ⟨([fallbackEvent pe eid], m), by simp only [trackErrors, hsid, hm, hC, hid]⟩
    | cons e es =>
      exact ⟨(e :: es, m), by simp only [trackErrors, hsid, hm, hC]⟩
  · cases hC : events ++ clearingEvents mm m with
    | nil =>
      exact ⟨([fallbackEvent pe eid], m), by simp only [trackErrors, hsid, hm, hC, hid]⟩
    | cons e es =>
      exact ⟨(e :: es, m), by simp only [trackErrors, hsid, hm, hC]⟩

/-! ## Claim theorems for synthesis and reconciliation -/

/-- C2 (counterexample): the synthesis/reconciliation path is not
panic-free — with a cached session value of a dynamic type other than
`map[string]string` (here an int), `renderDOMEvents` followed by
`trackErrors` hits the explicit panic in `trackErrors`. -/
theorem renderDOMEvents_bad_cache_panics :
    renderDOMEvents (fun s => Except.ok s) none (fun _ => GoVal.vNil) []
      (some (GoVal.vInt 0)) ⟨some "ev", "ok", none, GoVal.vNil, some "sess"⟩ =
    GoResult.panicked "fir: cache value is not a map[string]string" := rfl

/-- C2 (amended): every error return in the synthesis/reconciliation
path is non-fatal — the path returns normally (no panic) for any
template-engine, minifier and context-wrapper behaviour — provided the
bus event carries an ID and a SessionID, a non-ok event carries a
Target, the cached session value is absent or a `map[string]string`,
and any bound `_fir_html` sentinel is used with a nil template handle
or with plain string detail outside error state. Outside these
conditions the path can panic (see the counterexample). -/
theorem renderDOMEvents_no_panic_amended (mini : String → Except String String)
    (t : Option Template) (wrap : List (String × GoVal) → GoVal)
    (bindings : List (String × List String)) (cacheVal : Option GoVal)
    (pe : PubsubEvent) (eid sid : String)
    (hid : pe.id = some eid) (hsid : pe.sessionID = some sid)
    (hcache : cacheVal = none ∨ ∃ mm, cacheVal = some (GoVal.vMapSS mm))
    (htarget : pe.state = "ok" ∨ pe.target.isSome)
    (hsent : ∀ n ∈ TemplateNames bindings (eid ++ ":" ++ pe.state),
      n = "_fir_html" → t = none ∨ (pe.state ≠ "error" ∧ ∃ s, pe.detail = GoVal.vStr s)) :
    ∃ res, renderDOMEvents mini t wrap bindings cacheVal pe = .ok res := by
  obtain ⟨evs, hevs, hP⟩ := renderLoop_ok mini t wrap pe eid (eid ++ ":" ++ pe.state)
    (TemplateNames bindings (eid ++ ":" ++ pe.state)) hsent
  have hev : ∀ e ∈ evs, e.state ≠ "ok" → e.type.isSome ∧ e.target.isSome := by
    intro e he hne
    obtain ⟨h1, h2, h3⟩ := hP e he
    refine ⟨h1, ?_⟩
    rw [h2]
    rcases htarget with hok | hsome
    · rw [h3] at hne
      exact absurd hok hne
    · exact hsome
  obtain ⟨res, hres⟩ := trackErrors_ok pe cacheVal evs sid eid hsid hid hcache hev
  exact ⟨res, by simp only [renderDOMEvents, hid, hevs, hres]⟩

/-- C2 (witness): the amended theorem at a concrete well-formed event
with a raw pass-through binding. -/
theorem renderDOMEvents_no_panic_amended_witness :
    ∃ res, renderDOMEvents (fun s => Except.ok s) none (fun _ => GoVal.vNil)
      [("ev:ok", ["-"])] none ⟨some "ev", "ok", some "#t", GoVal.vInt 3, some "sess"⟩ =
      .ok res :=
  renderDOMEvents_no_panic_amended _ _ _ _ _ _ "ev" "sess" rfl rfl (Or.inl rfl)
    (Or.inl rfl) (fun _ _ _ => Or.inl rfl)

/-- C3 (counterexample): a pending-state candidate event — state
neither `ok` nor `error` — has its `(Type, Target)` pair recorded into
the fresh active mapping, refuting that only error-state events are
recorded. -/
theorem trackErrors_records_pending_counterexample :
    trackErrors ⟨some "ev", "pending", some "#t", GoVal.vNil, some "s"⟩ none
        [⟨some "fir:ev:pending", some "#t", GoVal.vNil, "ev", "pending"⟩] =
      .ok ([⟨some "fir:ev:pending", some "#t", GoVal.vNil, "ev", "pending"⟩],
           [("fir:ev:pending", "#t")])
  ∧ (⟨some "fir:ev:pending", some "#t", GoVal.vNil, "ev", "pending"⟩ : DomEvent).state
      ≠ "error" := ⟨rfl, by decide⟩

/-- C3 (amended): in reconciliation every candidate event passes
through unchanged to the output; `ok`-state candidates are never
recorded in the fresh active mapping (every recorded pair stems from a
non-ok candidate), and every non-ok candidate — error, pending or done
state alike — has its dereferenced `(Type, Target)` pair recorded into
the fresh mapping that is persisted as the session's cache value. -/
theorem trackErrors_records_nonok (pe : PubsubEvent) (sid : String)
    (prev : List (String × String)) (events : List DomEvent)
    (hsid : pe.sessionID = some sid)
    (hne : events ≠ [])
    (hev : ∀ e ∈ events, e.state ≠ "ok" → e.type.isSome ∧ e.target.isSome) :
    ∃ m, trackErrors pe (some (GoVal.vMapSS prev)) events =
        .ok (events ++ clearingEvents prev m, m)
      ∧ (∀ p ∈ m, ∃ e ∈ events, e.state ≠ "ok" ∧ e.type = some p.1 ∧ e.target = some p.2)
      ∧ (∀ e ∈ events, e.state ≠ "ok" → ∀ ty, e.type = some ty →
          (mapGet? m ty).isSome) := by
  obtain ⟨m, hm, hmem, hrec, _⟩ := trackLoop_ok events hev []
  refine ⟨m, ?_, ?_, hrec⟩
  · simp only [trackErrors, hsid, hm]
    cases events with
    | nil => exact absurd rfl hne
    | cons e es => simp
  · intro p hp
    rcases hmem p hp with hin | hx
    · simp at hin
    · exact hx

/-- C3 (witness): the amended theorem at a concrete candidate list
holding one ok-state and one error-state event. -/
theorem trackErrors_records_nonok_witness :
    ∃ m, trackErrors ⟨some "f", "error", some "#e", GoVal.vNil, some "s"⟩
        (some (GoVal.vMapSS []))
        [⟨some "fir:f:ok", some "#e", GoVal.vStr "x", "f", "ok"⟩,
         ⟨some "fir:f:error", some "#e", GoVal.vStr "y", "f:error", "error"⟩] =
        .ok ([⟨some "fir:f:ok", some "#e", GoVal.vStr "x", "f", "ok"⟩,
              ⟨some "fir:f:error", some "#e", GoVal.vStr "y", "f:error", "error"⟩]
             ++ clearingEvents [] m, m)
      ∧ (∀ p ∈ m, ∃ e ∈
            [⟨some "fir:f:ok", some "#e", GoVal.vStr "x", "f", "ok"⟩,
             (⟨some "fir:f:error", some "#e", GoVal.vStr "y", "f:error", "error"⟩ :
               DomEvent)],
            e.state ≠ "ok" ∧ e.type = some p.1 ∧ e.target = some p.2)
      ∧ (∀ e ∈ [⟨some "fir:f:ok", some "#e", GoVal.vStr "x", "f", "ok"⟩,
             (⟨some "fir:f:error", some "#e", GoVal.vStr "y", "f:error", "error"⟩ :
               DomEvent)], e.state ≠ "ok" → ∀ ty, e.type = some ty →
          (mapGet? m ty).isSome) :=
  trackErrors_records_nonok _ "s" _ _ rfl (by simp) (by simp)

/-- C6: reconciliation always returns at least one DOM event, and when
the candidate list is empty and no clearing is due (no previously
active errors) it returns exactly one fallback event whose type is the
compound `eventID:state` key with no template suffix, with the bus
event's target and detail. -/
theorem trackErrors_fallback (pe : PubsubEvent) (eid sid : String)
    (cacheVal : Option GoVal)
    (hid : pe.id = some eid) (hsid : pe.sessionID = some sid)
    (hcache : cacheVal = none ∨ cacheVal = some (GoVal.vMapSS [])) :
    trackErrors pe cacheVal [] = .ok ([fallbackEvent pe eid], [])
  ∧ ∀ (cv : Option GoVal) (events out : List DomEvent) (m : List (String × String)),
      trackErrors pe cv events = .ok (out, m) → out ≠ [] := by
  constructor
  · rcases hcache with h | h <;>
      simp [trackErrors, trackLoop, clearingEvents, hsid, hid, h]
  · intro cv events out m h
    exact trackErrors_out_nonempty pe cv events out m h

/-- C6 (witness): the fallback for a concrete event with no candidates
and an empty previous round; the fallback type is `fir:ev:ok`. -/
theorem trackErrors_fallback_witness :
    trackErrors ⟨some "ev", "ok", some "#t", GoVal.vInt 7, some "sess"⟩ none [] =
      .ok ([⟨some "fir:ev:ok", some "#t", GoVal.vInt 7, "ev", "ok"⟩], []) :=
  (trackErrors_fallback ⟨some "ev", "ok", some "#t", GoVal.vInt 7, some "sess"⟩
    "ev" "sess" none rfl rfl (Or.inl rfl)).1

/-- C7: for every `(type, target)` pair of the previous round whose
type is absent from the fresh mapping, reconciliation appends exactly
one clearing event (type `type`, target `target`, empty detail) after
the passed-through candidates, and pairs whose type survives into the
fresh mapping produce no clearing event. -/
theorem trackErrors_clearing (pe : PubsubEvent) (eid sid : String)
    (prev : List (String × String)) (events : List DomEvent)
    (hid : pe.id = some eid) (hsid : pe.sessionID = some sid)
    (hnodup : (prev.map Prod.fst).Nodup)
    (hev : ∀ e ∈ events, e.state ≠ "ok" → e.type.isSome ∧ e.target.isSome) :
    ∃ m out, trackErrors pe (some (GoVal.vMapSS prev)) events = .ok (out, m)
      ∧ (events ++ clearingEvents prev m ≠ [] →
          out = events ++ clearingEvents prev m)
      ∧ (∀ ty tg, (ty, tg) ∈ prev → mapGet? m ty = none →
          (clearingEvents prev m).countP (isClearFor ty tg) = 1)
      ∧ (∀ ty tg, (ty, tg) ∈ prev → (mapGet? m ty).isSome →
          (clearingEvents prev m).countP (isClearFor ty tg) = 0) := by
  obtain ⟨m, hm, _, _, _⟩ := trackLoop_ok events hev []
  have hcount1 : ∀ ty tg, (ty, tg) ∈ prev → mapGet? m ty = none →
      (clearingEvents prev m).countP (isClearFor ty tg) = 1 :=
    fun ty tg hmem hstale => clearing_countP_one prev m ty tg hnodup hmem hstale
  have hcount0 : ∀ ty tg, (ty, tg) ∈ prev → (mapGet? m ty).isSome →
      (clearingEvents prev m).countP (isClearFor ty tg) = 0 :=
    fun ty tg _ hsome => clearing_countP_zero prev m ty tg (fun v _ => hsome)
  cases hC : events ++ clearingEvents prev m with
  | nil =>
    refine ⟨m, [fallbackEvent pe eid], ?_, fun hne => absurd hC hne, hcount1, hcount0⟩
    simp only [trackErrors, hsid, hm, hC, hid]
  | cons e es =>
    refine ⟨m, e :: es, ?_, fun _ => hC.symm, hcount1, hcount0⟩
    simp only [trackErrors, hsid, hm, hC]

/-- C7 (witness): an ok-state round with no candidates clears the one
previously active error. -/
theorem trackErrors_clearing_witness :
    ∃ m out, trackErrors ⟨some "ev", "ok", none, GoVal.vNil, some "s"⟩
        (some (GoVal.vMapSS [("fir:form:error::name-error", "#name-error")])) [] =
        .ok (out, m)
      ∧ ([] ++ clearingEvents [("fir:form:error::name-error", "#name-error")] m ≠ [] →
          out = [] ++ clearingEvents [("fir:form:error::name-error", "#name-error")] m)
      ∧ (∀ ty tg, (ty, tg) ∈ [("fir:form:error::name-error", "#name-error")] →
          mapGet? m ty = none →
          (clearingEvents [("fir:form:error::name-error", "#name-error")] m).countP
            (isClearFor ty tg) = 1)
      ∧ (∀ ty tg, (ty, tg) ∈ [("fir:form:error::name-error", "#name-error")] →
          (mapGet? m ty).isSome →
          (clearingEvents [("fir:form:error::name-error", "#name-error")] m).countP
            (isClearFor ty tg) = 0) :=
  trackErrors_clearing _ "ev" "s" _ _ rfl rfl (by simp) (by simp)

/-- C8 (counterexample): `buildTemplateValue` does not fail with an
error when the `_fir_html` sentinel receives non-string data — the
unchecked `data.(string)` assertion panics. -/
theorem buildTemplateValue_sentinel_panics :
    buildTemplateValue (fun s => Except.ok s) (some ⟨fun _ _ => Except.ok ""⟩)
      "_fir_html" (GoVal.vInt 42) =
    GoResult.panicked "interface conversion: interface is not string" := rfl

/-- C8 (amended): `buildTemplateValue` returns an error (not a crash)
when the template engine fails, and for the `_fir_html` sentinel with
string data the string is used verbatim — no template execution, the
engine is arbitrary — and only minified, whose failure is returned as
an error; but sentinel data that is not a string panics rather than
erroring (see the counterexample). -/
theorem buildTemplateValue_amended :
    (∀ (mini : String → Except String String) (tf : Template) (name : String)
        (data : GoVal) (e : String), name ≠ "" → name ≠ "_fir_html" →
        tf.exec name data = Except.error e →
        buildTemplateValue mini (some tf) name data = .ok (.error e))
  ∧ (∀ (mini : String → Except String String) (tf : Template) (s v : String),
        mini s = Except.ok v →
        buildTemplateValue mini (some tf) "_fir_html" (GoVal.vStr s) = .ok (.ok v))
  ∧ (∀ (mini : String → Except String String) (tf : Template) (s e : String),
        mini s = Except.error e →
        buildTemplateValue mini (some tf) "_fir_html" (GoVal.vStr s) = .ok (.error e)) := by
  refine ⟨?_, ?_, ?_⟩
  · intro mini tf name data e h1 h2 hex
    simp [buildTemplateValue, if_neg h1, if_neg h2, hex]
  · intro mini tf s v hm
    simp [buildTemplateValue, hm]
  · intro mini tf s e hm
    simp [buildTemplateValue, hm]

/-- C8 (witness): the amended theorem at concrete oracles — a failing
engine, and a minifier that succeeds on `"x"` and fails on `"y"`. -/
theorem buildTemplateValue_amended_witness :
    buildTemplateValue (fun s => if s = "x" then Except.ok "min" else Except.error "bad")
      (some ⟨fun _ _ => Except.error "exec fail"⟩) "t1" GoVal.vNil =
      .ok (.error "exec fail")
  ∧ buildTemplateValue (fun s => if s = "x" then Except.ok "min" else Except.error "bad")
      (some ⟨fun _ _ => Except.error "exec fail"⟩) "_fir_html" (GoVal.vStr "x") =
      .ok (.ok "min")
  ∧ buildTemplateValue (fun s => if s = "x" then Except.ok "min" else Except.error "bad")
      (some ⟨fun _ _ => Except.error "exec fail"⟩) "_fir_html" (GoVal.vStr "y") =
      .ok (.error "bad") :=
  ⟨buildTemplateValue_amended.1 _ _ "t1" GoVal.vNil "exec fail"
      (by decide) (by decide) rfl,
   buildTemplateValue_amended.2.1 _ _ "x" "min" rfl,
   buildTemplateValue_amended.2.2 _ _ "y" "bad" rfl⟩

/-- C10: `buildTemplateValue` returns the empty string with no error
when the template handle is nil or the template name is empty — for
every minifier and engine behaviour, so neither execution nor
minification is consulted — and in `renderOne` an error-state render
through a nil template handle is treated as an empty render: the
template's event emission is skipped. -/
theorem buildTemplateValue_nil_empty :
    (∀ (mini : String → Except String String) (name : String) (data : GoVal),
        buildTemplateValue mini none name data = .ok (.ok ""))
  ∧ (∀ (mini : String → Except String String) (t : Option Template) (data : GoVal),
        buildTemplateValue mini t "" data = .ok (.ok ""))
  ∧ (∀ (mini : String → Except String String) (wrap : List (String × GoVal) → GoVal)
        (pe : PubsubEvent) (eid key n : String), n ≠ "-" → pe.state = "error" →
        renderOne mini none wrap pe eid key n = .ok none) := by
  refine ⟨fun mini name data => rfl, ?_, ?_⟩
  · intro mini t data
    cases t with
    | none => rfl
    | some tf => rfl
  · intro mini wrap pe eid key n hn hs
    simp only [renderOne, if_neg hn, templateDataOf, hs]
    cases pe.detail <;> simp [buildTemplateValue]

/-- C10 (witness): a nil template handle under error state yields no
event for a named template binding. -/
theorem buildTemplateValue_nil_empty_witness :
    renderOne (fun s => Except.ok s) none (fun _ => GoVal.vNil)
      ⟨some "ev", "error", none, GoVal.vNil, some "s"⟩ "ev" "ev:error" "name-error" =
      .ok none :=
  buildTemplateValue_nil_empty.2.2 _ _ _ _ _ _ (by decide) rfl
